import Mathlib

/-!
Verification development for the `context-node` repository: a shallow
embedding, in Lean 4, of the promise-lineage tracker
(`src/promise_context.cc`), the segmented context stack and registry
(`lib/context` module), and the file-access security controller
(`lib/security_context.js`), together with theorems settling the spec
claims about them.

Conventions of the embedding:
* JavaScript values that flow through the security controller are modelled
  by the inductive `JSVal`; machine integers are `Int`/`Nat` with explicit
  wrapping where overflow matters.
* Fallible JS code (functions that `throw`) returns `Except JsErr`.
* External collaborators (the host path normaliser `normalize_path`, the
  JS `RegExp` engine for `re:`-string patterns, and the random 32-character
  frame-id generator) are passed in as parameters, exactly as the spec
  treats them as external hooks.
* Mutable state (the controller stack, the context registry, the promise
  records) is passed explicitly: an operation takes the state and returns
  the updated state alongside its result.
-/

/-- Model of a JavaScript value as seen by the security controller.
`vnan` is the number NaN (`typeof NaN === 'number'`); JS arrays are
record-like objects with index keys, built by `jsArr`. -/
inductive JSVal where
  | vundefined
  | vnull
  | vbool (b : Bool)
  | vnum (n : Int)
  | vnan
  | vstr (s : String)
  | vobj (fields : List (String × JSVal))

/-- Error kinds raised by the embedded code, mirroring the repository's
stable error codes plus native TypeErrors raised by the JS runtime itself
(for example calling a method that does not exist). -/
inductive JsErr where
  | invalidArgType (argName : String)
  | invalidArgValue (argName : String)
  | invalidOptValue (argName : String)
  | indexOutOfRange
  | methodNotImplemented
  | fileAccessForbidden (path : JSVal)
  | nativeTypeError (msg : String)

/-- JS truthiness of a value. -/
def jsTruthy : JSVal → Bool
  | .vundefined => false
  | .vnull => false
  | .vbool b => b
  | .vnum n => decide (n ≠ 0)
  | .vnan => false
  | .vstr s => decide (s ≠ "")
  | .vobj _ => true

/-- A JS array value: a record-like object using decimal index keys
(`typeof [] === 'object'`, so code that only tests `typeof` and reads
properties treats this faithfully). -/
def jsArr (l : List JSVal) : JSVal :=
  .vobj (l.enum.map (fun p => (toString p.1, p.2)))

/-- JS ToInt32 coercion as used by the `&` operator, restricted to the value
shapes that can actually reach it in the embedded code (`_modeNum` results
and booleans; string coercion is unreachable there). -/
def jsToInt32 : JSVal → Int
  | .vnum n => ((n + 2147483648) % 4294967296) - 2147483648
  | .vbool b => if b then 1 else 0
  | _ => 0

/-- `v & k` for a JS value `v` and a small nonnegative constant `k`. -/
def jsLand (v : JSVal) (k : Int) : Int :=
  Int.land (jsToInt32 v) k

/-- First index of character `c` in the character list, starting at `i`;
`-1` when absent (JS `String.prototype.indexOf` with a 1-character needle). -/
def strIndexOfAux (c : Char) : List Char → Int → Int
  | [], _ => -1
  | d :: ds, i => if d = c then i else strIndexOfAux c ds (i + 1)

/-- JS `s.indexOf(c)` for a single-character needle. -/
def strIndexOf (s : String) (c : Char) : Int :=
  strIndexOfAux c s.data 0

/-- Numeric value of a digit list (used after an all-digit check). -/
def digitsToNat (cs : List Char) : Nat :=
  cs.foldl (fun a c => a * 10 + (c.toNat - 48)) 0

/-- `_ARGUMENT_RE = /^\{(\d+)\}$/` from security_context.js: returns the
captured index when the string is exactly a brace-wrapped digit run. -/
def parseArgRe (s : String) : Option Nat :=
  match s.data with
  | '{' :: rest =>
    match rest.getLast? with
    | some '}' =>
      let mid := rest.dropLast
      if mid ≠ [] ∧ mid.all Char.isDigit then some (digitsToNat mid) else none
    | _ => none
  | _ => none

/-- A character allowed in the key capture of `_OPTION_RE` (`[a-zA-Z0-9_]`). -/
def isOptKeyChar (c : Char) : Bool :=
  c.isAlpha || c.isDigit || c = '_'

/-- `_OPTION_RE = /^\{(\d+)\.([a-zA-Z0-9_]+)\}$/` from security_context.js:
returns the captured index and key on an exact match. -/
def parseOptRe (s : String) : Option (Nat × String) :=
  match s.data with
  | '{' :: rest =>
    match rest.getLast? with
    | some '}' =>
      let mid := rest.dropLast
      let digs := mid.takeWhile Char.isDigit
      match mid.drop digs.length with
      | '.' :: key =>
        if digs ≠ [] ∧ key ≠ [] ∧ key.all isOptKeyChar then
          some (digitsToNat digs, String.mk key)
        else none
      | _ => none
    | _ => none
  | _ => none

/-- JS object property read: first (and, for lists built by `objSet`, only)
entry with the given key. -/
def objGet {α : Type} : List (String × α) → String → Option α
  | [], _ => none
  | (k2, v) :: rest, k => if k2 = k then some v else objGet rest k

/-- JS object property write `m[k] = v`: replace the value in place when the
key exists, append otherwise (JS property-order semantics). -/
def objSet {α : Type} : List (String × α) → String → α → List (String × α)
  | [], k, v => [(k, v)]
  | (k2, v2) :: rest, k, v =>
    if k2 = k then (k2, v) :: rest else (k2, v2) :: objSet rest k v

/-- JS `delete m[k]`. -/
def objDelete {α : Type} (m : List (String × α)) (k : String) : List (String × α) :=
  m.filter (fun p => !(p.1 == k))

/-- `_getResourceArg(resourceDef, args)` from security_context.js lines
28-56: resolve the `{N}` / `{N.key}` placeholder notation against the
positional arguments, falling through to the definition itself otherwise.
In the `{N.key}` branch the source tests `typeof arg === 'object'`, which
in JS is also true of `null`; `arg[key]` on a `null` argument then throws
a native TypeError at line 46, modelled by the error result.  An object
argument missing the key reads as `undefined`; a non-object, non-null
argument falls through to `undefined`. -/
def getResourceArg (resourceDef : JSVal) (args : List JSVal) : Except JsErr JSVal :=
  match resourceDef with
  | .vstr s =>
    match parseArgRe s with
    | some idx => if idx < args.length then .ok (args.getD idx .vundefined) else .ok .vundefined
    | none =>
      match parseOptRe s with
      | some (idx, key) =>
        if idx < args.length then
          match args.getD idx .vundefined with
          | .vobj fields => .ok ((objGet fields key).getD .vundefined)
          | .vnull => .error (.nativeTypeError "Cannot read property of null")
          | _ => .ok .vundefined
        else .ok .vundefined
      | none => .ok resourceDef
  | _ => .ok resourceDef

/-! ### PathMatcher: the matcher compiler of security_context.js -/

/-- `s.startsWith(p)`, computed structurally on the character lists. -/
def strStartsWith (s p : String) : Bool :=
  s.data.take p.data.length == p.data

/-- `_isGlob(glob)` from security_context.js lines 87-90: the string contains
a `*` or `?` (the `[]` syntax is not supported). -/
def isGlob (g : String) : Bool :=
  g.data.contains '*' || g.data.contains '?'

/-- JS `s.split(/\\|\//)`: split on every `/` or `\` separator, keeping
empty pieces (a leading or trailing separator yields an empty piece). -/
def splitSepsAux : List Char → List Char → List String
  | [], acc => [String.mk acc.reverse]
  | c :: cs, acc =>
    if c = '/' ∨ c = '\\' then String.mk acc.reverse :: splitSepsAux cs []
    else splitSepsAux cs (c :: acc)

/-- Split a string on `/` and `\` separators (JS `split(/\\|\//)`). -/
def splitSeps (s : String) : List String :=
  splitSepsAux s.data []

/-- One token of the regex built from a glob segment by `_mkGlobMatcher`
lines 154-163: after the replacement chain, an original `?` is the regex
`.`, an original `*` is `.*?`, and every other character is a literal. -/
inductive GSeg where
  | lit (c : Char)
  | anyChar
  | anyStr

/-- Compile one glob segment into the token list of the regex
`'^' + p + '$'` built at security_context.js line 163. -/
def gsegOfString (s : String) : List GSeg :=
  s.data.map (fun c => if c = '?' then .anyChar else if c = '*' then .anyStr else .lit c)

/-- JS regex `.` does not match a line terminator. -/
def isLineTerm (c : Char) : Bool :=
  c = '\n' || c = '\r' || c = ' ' || c = ' '

/-- The suffixes of `ds` reachable by consuming characters with regex `.`
(stopping at a line terminator); used to interpret the `.*?` token. -/
def dotSuffixes : List Char → List (List Char)
  | [] => [[]]
  | d :: ds => (d :: ds) :: (if isLineTerm d then [] else dotSuffixes ds)

/-- Whole-string matching of the anchored segment regex against a segment.
For the anchored boolean test, the lazy `.*?` coincides with "any run of
non-terminator characters". -/
def gsegMatch : List GSeg → List Char → Bool
  | [], ds => ds.isEmpty
  | .lit c :: gs, ds =>
    match ds with
    | [] => false
    | d :: ds2 => c = d && gsegMatch gs ds2
  | .anyChar :: gs, ds =>
    match ds with
    | [] => false
    | d :: ds2 => !isLineTerm d && gsegMatch gs ds2
  | .anyStr :: gs, ds => (dotSuffixes ds).any (fun suf => gsegMatch gs suf)

/-- One entry of the `globs` array assembled by `_mkGlobMatcher` lines
142-167: the injected `'**'` sentinel string, a literal segment string, or
a compiled segment regex. -/
inductive GlobSeg where
  | sentinel
  | strSeg (s : String)
  | regexSeg (toks : List GSeg)

/-- The glob assembly loop of `_mkGlobMatcher` lines 144-167, with `i` the
loop index and `total` the segment count: an empty piece pushes the `'**'`
sentinel unless it is the leading empty piece of an absolute path; a piece
containing glob characters is compiled to a segment regex; any other piece
is kept as a literal string. -/
def buildGlobsAux (i total : Nat) : List String → List GlobSeg
  | [] => []
  | p :: rest =>
    if p.length ≤ 0 then
      (if i > 0 ∨ i + 1 ≥ total then [GlobSeg.sentinel] else [])
        ++ buildGlobsAux (i + 1) total rest
    else if isGlob p then GlobSeg.regexSeg (gsegOfString p) :: buildGlobsAux (i + 1) total rest
    else GlobSeg.strSeg p :: buildGlobsAux (i + 1) total rest

/-- Assemble the per-segment matcher list from the split pattern. -/
def buildGlobs (paths : List String) : List GlobSeg :=
  buildGlobsAux 0 paths.length paths

/-- The lock-step loop of `_globMatcher` (security_context.js lines 58-84)
on the already-split input. Each iteration first skips empty input pieces
(returning false when the input runs out mid-skip), then compares the
current pattern entry: the sentinel returns true outright, a literal must
equal the piece, a segment regex must match the whole piece; finally both
lists must be exhausted together. -/
def gmLoop : List GlobSeg → List String → Bool
  | [], ps => ps.isEmpty
  | _ :: _, [] => false
  | g :: gs, p :: ps =>
    if p = "" then
      match ps with
      | [] => false
      | _ :: _ => gmLoop (g :: gs) ps
    else
      match g with
      | .sentinel => true
      | .strSeg t => t == p && gmLoop gs ps
      | .regexSeg toks => gsegMatch toks p.data && gmLoop gs ps

/-- `_globMatcher(globPaths, s)`: split the input on separators and run the
lock-step loop. -/
def globMatcher (globs : List GlobSeg) (s : String) : Bool :=
  gmLoop globs (splitSeps s)

/-- The directory-sub-path matcher returned by `_mkGlobMatcher` lines
124-136 for a glob-free pattern ending in a separator: the input must start
with the stripped pattern `gs` (`s.indexOf(gs) === 0`), be strictly longer,
and continue with a separator. -/
def dirMatch (gs s : String) : Bool :=
  (s.data.take gs.data.length == gs.data) &&
    (match s.data.get? gs.data.length with
     | some c => c = '/' || c = '\\'
     | none => false)

/-- `_mkGlobMatcher(glob)` from security_context.js lines 92-169,
parametrised by the external path normaliser `norm` (the
`normalize(toNamespacedPath(getPathFromURL(...)))` pipeline) and by the JS
regex engine `regexTest` used only for `re:`-string patterns. Non-string
input is excluded by the `String` type; an empty string raises the source's
TypeError. -/
def mkGlobMatcher (norm : String → String) (regexTest : String → String → Bool)
    (glob : String) : Except JsErr (String → Bool) :=
  if glob.length = 0 then .error (.invalidArgType "glob")
  else if strStartsWith glob "re:" then .ok (fun s => regexTest (String.mk (glob.data.drop 3)) s)
  else
    let gs := norm glob
    if isGlob glob then .ok (fun s => globMatcher (buildGlobs (splitSeps gs)) s)
    else
      match glob.data.getLast? with
      | some lc =>
        if lc = '/' ∨ lc = '\\' then
          let gs2 :=
            match gs.data.getLast? with
            | some gc =>
              if gc = '/' ∨ gc = '\\' then String.mk gs.data.dropLast else gs
            | none => gs
          .ok (fun s => dirMatch gs2 s)
        else .ok (fun s => s == gs)
      | none => .ok (fun s => s == gs)

/-- A JS `RegExp` object, identified by its `test` behaviour.  The object
carries no `match` method: `match` is a `String` method, and the property
key used by `String.prototype.match` on a regex is the symbol
`Symbol.match`, so the plain property `re.match` is `undefined`. -/
structure RegexObj where
  test : String → Bool

/-- `_mkRegExpMatcher(re)` from security_context.js lines 171-173: the
source returns `(s) => { return re.match(); }`, and since `re.match` is
`undefined`, every invocation of the compiled predicate throws a native
TypeError instead of testing the regex. -/
def mkRegExpMatcher (_ : RegexObj) : String → Except JsErr Bool :=
  fun _ => .error (.nativeTypeError "re.match is not a function")

/-- The loop body of `_mkListMatcher` lines 175-184: try each sub-matcher
in order, propagating a thrown error, and return false when none matched. -/
def mkListMatcherRun : List (String → Except JsErr Bool) → String → Except JsErr Bool
  | [], _ => .ok false
  | m :: rest, s =>
    match m s with
    | .error e => .error e
    | .ok true => .ok true
    | .ok false => mkListMatcherRun rest s

/-- `_mkListMatcher(vl)`. -/
def mkListMatcher (vl : List (String → Except JsErr Bool)) : String → Except JsErr Bool :=
  fun s => mkListMatcherRun vl s

/-- A pattern accepted by `_toMatcher`: `null`/`undefined`, a string, a
regex object, or an array of patterns (any other element shape is the
configuration TypeError of lines 203-208). -/
inductive Pattern where
  | pnone
  | pstr (s : String)
  | pregex (r : RegexObj)
  | parr (elems : List Pattern)

/-- The array-element compilation loop of `_toMatcher` lines 196-209:
string elements go through `_mkGlobMatcher`, regex elements through the
broken `_mkRegExpMatcher`, anything else raises the TypeError. -/
def toMatcherElems (norm : String → String) (regexTest : String → String → Bool)
    (argName : String) :
    List Pattern → Except JsErr (List (String → Except JsErr Bool))
  | [] => .ok []
  | .pstr v :: rest =>
    match mkGlobMatcher norm regexTest v with
    | .error e => .error e
    | .ok m =>
      (toMatcherElems norm regexTest argName rest).map (fun l => (fun s => .ok (m s)) :: l)
  | .pregex r :: rest =>
    (toMatcherElems norm regexTest argName rest).map (fun l => mkRegExpMatcher r :: l)
  | _ :: _ => .error (.invalidArgType argName)

/-- `_toMatcher(value, argName)` from security_context.js lines 186-217.
Note the asymmetry of the source: a top-level regex object compiles to the
correct `(s) => value.test(s)`, while a regex *inside an array* goes
through the broken `_mkRegExpMatcher`. -/
def toMatcher (norm : String → String) (regexTest : String → String → Bool)
    (argName : String) : Pattern → Except JsErr (String → Except JsErr Bool)
  | .pnone => .ok (fun _ => .ok false)
  | .pstr v => (mkGlobMatcher norm regexTest v).map (fun m => fun s => .ok (m s))
  | .pregex r => .ok (fun s => .ok (r.test s))
  | .parr elems => (toMatcherElems norm regexTest argName elems).map mkListMatcher

/-! ### FileAccessController: request descriptor and the on_context checks -/

/-- `parseInt(s, 8)` as used by `_modeNum`: skip leading whitespace, read an
optional sign, then the longest run of octal digits; `none` models NaN. -/
def parseIntOct (s : String) : Option Int :=
  let cs := s.data.dropWhile (fun c => c = ' ' ∨ c = '\t' ∨ c = '\n' ∨ c = '\r')
  let signed : Int × List Char :=
    match cs with
    | '-' :: r => (-1, r)
    | '+' :: r => (1, r)
    | r => (1, r)
  let digs := signed.2.takeWhile (fun c => '0' ≤ c ∧ c ≤ '7')
  if digs = [] then none
  else some (signed.1 * digs.foldl (fun a c => a * 8 + ((c.toNat : Int) - 48)) 0)

/-- The recursive `_modeNum(def)` call of line 268, i.e. `_modeNum` with its
own default `undefined`: a number is returned as-is, a string is parsed as
octal (`vnan` on parse failure), anything else yields `undefined`. -/
def modeNumBase : JSVal → JSVal
  | .vnum n => .vnum n
  | .vstr s =>
    match parseIntOct s with
    | some n => .vnum n
    | none => .vnan
  | _ => .vundefined

/-- `_modeNum(m, def)` from security_context.js lines 262-270. -/
def modeNum (m : JSVal) (dflt : JSVal) : JSVal :=
  match m with
  | .vnum n => .vnum n
  | .vstr s =>
    match parseIntOct s with
    | some n => .vnum n
    | none => .vnan
  | _ => if jsTruthy dflt then modeNumBase dflt else .vundefined

/-- `_isMatched(value, matcher)` lines 272-279: non-string values never
match; strings are fed to the compiled matcher. -/
def isMatched (v : JSVal) (matcher : String → Bool) : Bool :=
  match v with
  | .vstr s => matcher s
  | _ => false

/-- `_checkMode(value, list, msg)` lines 281-286: throw
`ERR_FILE_ACCESS_FORBIDDEN` carrying the value when the matcher rejects. -/
def checkMode (v : JSVal) (matcher : String → Bool) : Except JsErr Unit :=
  if isMatched v matcher then .ok () else .error (.fileAccessForbidden v)

/-- Which of the three compiled matchers a check consults. -/
inductive AccessKind where
  | readable
  | writable
  | listable
deriving DecidableEq

/-- The three compiled matchers of a `FileAccessController` (immutable,
shared between a parent and its `createChild` results). -/
structure FAMatchers where
  readable : String → Bool
  writable : String → Bool
  listable : String → Bool

/-- Select a matcher by kind. -/
def FAMatchers.get (fa : FAMatchers) : AccessKind → (String → Bool)
  | .readable => fa.readable
  | .writable => fa.writable
  | .listable => fa.listable

/-- The request descriptor `this[kContext]` populated by `createChild`
lines 333-338: `read`/`write`/`list` are string lists, `flags`/`path`/
`mode` are string-or-null. -/
structure FAContext where
  read : List String
  write : List String
  list : List String
  flags : Option String
  path : Option String
  mode : Option String

/-- A string-or-null descriptor field as a JS value. -/
def optStrJS : Option String → JSVal
  | none => .vnull
  | some s => .vstr s

/-- The descriptor as the JS object `this[kContext]` (key order follows the
constructor plus the `createChild` assignments; only its `typeof`, which is
`'object'`, is ever consulted downstream). -/
def FAContext.toJS (c : FAContext) : JSVal :=
  .vobj [("read", jsArr (c.read.map JSVal.vstr)),
         ("write", jsArr (c.write.map JSVal.vstr)),
         ("flags", optStrJS c.flags),
         ("path", optStrJS c.path),
         ("list", jsArr (c.list.map JSVal.vstr)),
         ("mode", optStrJS c.mode)]

/-- `normalizePath(path)` of security_context.js lines 405-417: null-safe
wrapper around the external path pipeline `norm`.  (A non-string, non-null
argument would be passed to the native path functions; no claim exercises
that shape, and it is left unchanged here.) -/
def normalizePathJS (norm : String → String) : JSVal → JSVal
  | .vnull => .vnull
  | .vundefined => .vnull
  | .vstr s => .vstr (norm s)
  | v => v

/-- The flag-check block of `onContext` (security_context.js lines
344-361), given the already-normalised `path` value: when the descriptor
`flags` field is a string and the path is a string, resolve the flags
(defaulting `null`/`undefined` to `'r'`), then schedule a readable check if
`flags.indexOf('r') >= 0 || flags.indexOf('+') > 0` and a writable check if
`flags.indexOf('w') >= 0 || flags.indexOf('a') >= 0 ||
flags.indexOf('+') > 0`.  Note the source's `> 0` on `'+'`: a leading `+`
is invisible to both tests.  A non-string resolved flags value has no
`indexOf` and throws a native TypeError. -/
def flagChecks (ctx : FAContext) (args : List JSVal) (pathV : JSVal) :
    Except JsErr (List (AccessKind × JSVal)) :=
  match ctx.flags, pathV with
  | some fspec, .vstr _ =>
    match getResourceArg (.vstr fspec) args with
    | .error e => .error e
    | .ok res =>
      let fl : JSVal :=
        match res with
        | .vnull => .vstr "r"
        | .vundefined => .vstr "r"
        | x => x
      match fl with
      | .vstr f =>
        .ok ((if strIndexOf f 'r' ≥ 0 ∨ strIndexOf f '+' > 0
              then [(AccessKind.readable, pathV)] else [])
          ++ (if strIndexOf f 'w' ≥ 0 ∨ strIndexOf f 'a' ≥ 0 ∨ strIndexOf f '+' > 0
              then [(AccessKind.writable, pathV)] else []))
      | _ => .error (.nativeTypeError "flags.indexOf is not a function")
  | _, _ => .ok []

/-- The mode-check block of `onContext` (security_context.js lines
363-375).  Two slips of the source are embedded as written: the resolved
value is `_getResourceArg(this[kContext], invoker.args)` — the whole
descriptor object, not the `mode` field — so `_modeNum` always falls back
to the default `0o666 = 438`; and by JS precedence the conditions
`mode & 0o444 !== 0` and `mode & 0o222 !== 0` are `mode & (0o444 !== 0)`
and `mode & (0o222 !== 0)`, i.e. `mode & true` = `mode & 1` for both. -/
def modeChecks (ctx : FAContext) (args : List JSVal) (pathV : JSVal) :
    List (AccessKind × JSVal) :=
  match ctx.mode, pathV with
  | some _, .vstr _ =>
    -- The resource spec here is the descriptor object itself (the source
    -- bug), and a non-string spec resolves to itself without error, so the
    -- error fallback below is unreachable.
    let resolved : JSVal :=
      match getResourceArg ctx.toJS args with
      | .ok v => v
      | .error _ => .vundefined
    let mode := modeNum resolved (.vnum 438)
    (if jsLand mode 1 ≠ 0 then [(AccessKind.readable, pathV)] else [])
      ++ (if jsLand mode 1 ≠ 0 then [(AccessKind.writable, pathV)] else [])
  | _, _ => []

/-- Run scheduled checks in order, stopping at the first rejection (the
source's `_checkMode` throws at the first failure).  Used for the flag and
mode blocks, whose check conditions are pure and total once the flags value
has been resolved, so scheduling them up front and running them here
preserves the source's observable behaviour and error order. -/
def runChecks (fa : FAMatchers) : List (AccessKind × JSVal) → Except JsErr Unit
  | [] => .ok ()
  | (k, v) :: rest =>
    match checkMode v (fa.get k) with
    | .error e => .error e
    | .ok _ => runChecks fa rest

/-- One of the `list`/`read`/`write` loops of `onContext` (security_context.js
lines 377-395), for the given access kind: each entry is resolved (a thrown
resolution TypeError propagating from inside the loop), normalised, and
checked against the kind's matcher before the next entry is touched. -/
def runCheckList (norm : String → String) (fa : FAMatchers) (kind : AccessKind)
    (args : List JSVal) : List String → Except JsErr Unit
  | [] => .ok ()
  | spec :: rest =>
    match getResourceArg (.vstr spec) args with
    | .error e => .error e
    | .ok v =>
      match checkMode (normalizePathJS norm v) (fa.get kind) with
      | .error e => .error e
      | .ok _ => runCheckList norm fa kind args rest

/-- `FileAccessController.onContext(invoker)` (security_context.js lines
343-399): resolve and normalise the descriptor path (a resolution TypeError
propagating before any check), run the flag block, the mode block, and the
`list`, `read` and `write` loops in order; `.ok ()` models reaching the
final `return invoker.invoke()`. -/
def FileAccessController.onContext (norm : String → String) (fa : FAMatchers)
    (ctx : FAContext) (args : List JSVal) : Except JsErr Unit :=
  match getResourceArg (optStrJS ctx.path) args with
  | .error e => .error e
  | .ok pv =>
    let pathV := normalizePathJS norm pv
    match flagChecks ctx args pathV with
    | .error e => .error e
    | .ok fc =>
      match runChecks fa fc with
      | .error e => .error e
      | .ok _ =>
        match runChecks fa (modeChecks ctx args pathV) with
        | .error e => .error e
        | .ok _ =>
          match runCheckList norm fa .listable args ctx.list with
          | .error e => .error e
          | .ok _ =>
            match runCheckList norm fa .readable args ctx.read with
            | .error e => .error e
            | .ok _ => runCheckList norm fa .writable args ctx.write

/-! ### ContextControllerStack and ExecutionContextView (unnamed/part_003) -/

/-- A segment contextual controller: the capability interface
`{ createChild, onContext }`.  `createChild` may throw; `onContext`
receives the inner invocation as a thunk and produces the call result or a
failure.  (The dynamic `isSegmentContextualController` shape checks of the
source always succeed on values of this type.) -/
inductive Controller where
  | mk (createChild : JSVal → Except JsErr Controller)
       (onContext : (Unit → Except JsErr JSVal) → Except JsErr JSVal)

/-- The `createChild` capability. -/
def Controller.createChild : Controller → JSVal → Except JsErr Controller
  | .mk c _ => c

/-- The `onContext` capability. -/
def Controller.onCtx : Controller → (Unit → Except JsErr JSVal) → Except JsErr JSVal
  | .mk _ o => o

/-- One frame of a `ContextControllerStack`: the `kFrameId` token plus the
segment-name → controller map (`kFrameId` is a symbol key in the source and
therefore invisible to the `for (var k in ...)` loops). -/
structure Frame where
  frameId : String
  segments : List (String × Controller)

/-- The segment map built by a `for (var k in src) dst[k] = src[k]` copy
loop, folded over an existing accumulator object. -/
def addSegs (acc : List (String × Controller)) (segs : List (String × Controller)) :
    List (String × Controller) :=
  segs.foldl (fun a p => objSet a p.1 p.2) acc

/-- `ContextControllerStack.push(segmentControllers)` lines 150-169: copy
the own properties into a fresh segment object, stamp the freshly generated
frame id (passed in as `freshId`, standing for the random 32-character
token), and append the frame to the top (the end) of the stack.  The
per-value controller validation always succeeds on typed controllers. -/
def ContextControllerStack.push (stack : List Frame)
    (segmentControllers : List (String × Controller)) (freshId : String) : List Frame :=
  stack ++ [⟨freshId, addSegs [] segmentControllers⟩]

/-- `ContextControllerStack.pop(frameId)` lines 171-182: RangeError
`ERR_INDEX_OUT_OF_RANGE` on an empty stack, `ERR_INVALID_ARG_VALUE` when
the top frame's id differs, otherwise remove the top frame. -/
def ContextControllerStack.pop (stack : List Frame) (frameId : String) :
    Except JsErr (List Frame) :=
  match stack.getLast? with
  | none => .error .indexOutOfRange
  | some last =>
    if last.frameId = frameId then .ok stack.dropLast
    else .error (.invalidArgValue "frameId")

/-- `ContextControllerStack.getSegmentController(segmentId)` lines 184-194:
scan the frames backwards from the top (the list end), returning the first
frame's controller for the segment (`null`, i.e. `none`, when absent).
The recursion gives the frames later in the list priority, which is exactly
the backwards scan. -/
def ContextControllerStack.getSegmentController : List Frame → String → Option Controller
  | [], _ => none
  | f :: rest, k =>
    match ContextControllerStack.getSegmentController rest k with
    | some c => some c
    | none => objGet f.segments k

/-- The flattening loop of `ContextControllerStack.fork` lines 131-137:
walk the frames in order and copy each frame's segments, so that later
frames override earlier ones on key collision. -/
def collapseSegs (stack : List Frame) : List (String × Controller) :=
  stack.foldl (fun acc f => addSegs acc f.segments) []

/-- `ContextControllerStack.fork(frameId)` lines 123-141: reject a falsy
frame id (the empty string), otherwise return a new one-frame stack holding
the flattened segments under the new id. -/
def ContextControllerStack.fork (stack : List Frame) (frameId : String) :
    Except JsErr (List Frame) :=
  if frameId = "" then .error (.invalidArgValue "frameId")
  else .ok [⟨frameId, collapseSegs stack⟩]

/-- The chain-building loop of `ExecutionContextViewImpl.runInContext`
lines 354-379: for each requested segment (in declaration order), look up
its controller; when present, create the per-call child (whose shape
re-validation always succeeds on typed controllers), record it in the
`controllers` object and wrap the invocation; when absent, raise
`ERR_INVALID_ARG_VALUE` in strict-segments mode and skip otherwise.
Returns the collected children and the outermost invocation. -/
def buildChain (stack : List Frame) (strictSegments : Bool) :
    List (String × JSVal) → List (String × Controller) → (Unit → Except JsErr JSVal) →
    Except JsErr (List (String × Controller) × (Unit → Except JsErr JSVal))
  | [], ctrls, inv => .ok (ctrls, inv)
  | (k, dat) :: rest, ctrls, inv =>
    match ContextControllerStack.getSegmentController stack k with
    | some c =>
      match c.createChild dat with
      | .error e => .error e
      | .ok child =>
        buildChain stack strictSegments rest (objSet ctrls k child)
          (fun _ => child.onCtx inv)
    | none =>
      if strictSegments then .error (.invalidArgValue k)
      else buildChain stack strictSegments rest ctrls inv

/-- `ExecutionContextViewImpl.runInContext` lines 334-390, acting on the
view's stack: build the invocation chain from the inner invocation of the
wrapped call (`call`), push the collected children as a new frame (with the
freshly generated id `freshId`), run the outermost invocation, and — as the
source's `try { ... } finally { this[kStack].pop(frameId); }` — pop that
frame whether the invocation returned or raised, before the result or
failure is surfaced.  An error thrown by the pop itself would replace the
result, as `finally` does. -/
def ExecutionContextViewImpl.runInContext (stack : List Frame) (strictSegments : Bool)
    (segmentOptions : List (String × JSVal)) (call : Unit → Except JsErr JSVal)
    (freshId : String) : List Frame × Except JsErr JSVal :=
  match buildChain stack strictSegments segmentOptions [] call with
  | .error e => (stack, .error e)
  | .ok (controllers, invoker) =>
    let stack2 := ContextControllerStack.push stack controllers freshId
    let r := invoker ()
    match ContextControllerStack.pop stack2 freshId with
    | .ok stack3 => (stack3, r)
    | .error e => (stack2, .error e)

/-! ### ContextRegistry (unnamed/part_003 lines 414-504) -/

/-- The process-wide registry state: `_threadIdToName` maps task ids
(strings of the form `'#' + promiseId`) to lineage names, and
`_threadNameToView` maps lineage names to views.  The view type is a
parameter: nothing in `endPromise` inspects a view. -/
structure ContextRegistry (V : Type) where
  threadIdToName : List (String × String)
  threadNameToView : List (String × V)

/-- The search performed by the `for (var k in _threadIdToName)` loop of
`endPromise`: the first task id bound to the given context name. -/
def findTaskBinding (contextName : String) : List (String × String) → Option String
  | [] => none
  | (tid, n) :: rest =>
    if n = contextName then some tid else findTaskBinding contextName rest

/-- `endPromise(contextName)` from unnamed/part_003 lines 493-504: walk the
task-binding table; at the **first** entry bound to the name, delete that
one task binding and the name's view binding and return true immediately;
when no task binding references the name, fail silently with false (the
view binding, if any, is left in place). -/
def endPromise {V : Type} (reg : ContextRegistry V) (contextName : String) :
    ContextRegistry V × Bool :=
  match findTaskBinding contextName reg.threadIdToName with
  | some tid =>
    ({ threadIdToName := objDelete reg.threadIdToName tid,
       threadNameToView := objDelete reg.threadNameToView contextName }, true)
  | none => (reg, false)

/-! ### PromiseTracker: ActivePromise records (promise_context.cc) -/

/-- One `ActivePromise` record: the monotonic `promise_id_`, the
`active_count_` (a `uint32_t`), and the `parent_` persistent handle
(`none` models an empty persistent, i.e. no parent).  Promise handles are
modelled by their identity as natural numbers. -/
structure ActivePromise where
  promiseId : Nat
  activeCount : Nat
  parent : Option Nat

/-- `ActivePromise::add_match(new_parent)` from unnamed/part_000 lines
428-442 (and, identically up to logging, src/promise_context.cc lines
407-412): increment `active_count_` (uint32 wrap), and when the announced
parent is neither undefined nor null, store it via `set_persistent_value`
— replacing whatever parent was stored before, concrete or absent.  A
null/undefined announcement leaves the stored parent unchanged. -/
def ActivePromise.addMatch (ap : ActivePromise) (newParent : Option Nat) : ActivePromise :=
  let ap2 : ActivePromise := { ap with activeCount := (ap.activeCount + 1) % 4294967296 }
  match newParent with
  | none => ap2
  | some p => { ap2 with parent := some p }

/-- First-some choice on options, used to state lookup lemmas. -/
def optOr {α : Type} : Option α → Option α → Option α
  | some x, _ => some x
  | none, b => b

/-- A minimal concrete controller used to instantiate witnesses. -/
def trivialController : Controller :=
  .mk (fun _ => .error .methodNotImplemented) (fun inner => inner ())

/-! ### Helper lemmas -/

theorem objGet_objSet {α : Type} (m : List (String × α)) (sk qk : String) (v : α) :
    objGet (objSet m sk v) qk = if sk = qk then some v else objGet m qk := by
  induction m with
  | nil =>
    by_cases h : sk = qk <;> simp [objSet, objGet, h]
  | cons p rest ih =>
    obtain ⟨k1, v1⟩ := p
    by_cases h1 : k1 = sk
    · subst h1
      by_cases h2 : k1 = qk <;> simp [objSet, objGet, h2]
    · by_cases h2 : k1 = qk
      · subst h2
        have : ¬ sk = k1 := fun hh => h1 hh.symm
        simp [objSet, objGet, h1, this]
      · simp [objSet, objGet, h1, h2, ih]

theorem objGet_eq_none {α : Type} (m : List (String × α)) (k : String)
    (h : k ∉ m.map Prod.fst) : objGet m k = none := by
  induction m with
  | nil => rfl
  | cons p rest ih =>
    obtain ⟨k1, v1⟩ := p
    simp only [List.map_cons, List.mem_cons] at h
    push_neg at h
    have h1 : ¬ k1 = k := fun hh => h.1 hh.symm
    simp [objGet, h1, ih h.2]

theorem objGet_addSegs (segs : List (String × Controller)) (acc : List (String × Controller))
    (k : String) (h : (segs.map Prod.fst).Nodup) :
    objGet (addSegs acc segs) k = optOr (objGet segs k) (objGet acc k) := by
  induction segs generalizing acc with
  | nil => simp [addSegs, objGet, optOr]
  | cons p rest ih =>
    obtain ⟨k1, v1⟩ := p
    simp only [List.map_cons, List.nodup_cons] at h
    have hstep : addSegs acc ((k1, v1) :: rest) = addSegs (objSet acc k1 v1) rest := rfl
    rw [hstep, ih (objSet acc k1 v1) h.2]
    by_cases hk : k1 = k
    · subst hk
      have hnone : objGet rest k1 = none := objGet_eq_none rest k1 h.1
      simp [hnone, objGet, objGet_objSet, optOr]
    · simp [objGet, hk, objGet_objSet, optOr]

theorem objGet_collapse (stack : List Frame) (acc : List (String × Controller)) (k : String)
    (h : ∀ f ∈ stack, ((f.segments.map Prod.fst).Nodup)) :
    objGet (stack.foldl (fun a f => addSegs a f.segments) acc) k =
      optOr (ContextControllerStack.getSegmentController stack k) (objGet acc k) := by
  induction stack generalizing acc with
  | nil => simp [ContextControllerStack.getSegmentController, optOr]
  | cons f rest ih =>
    have hf : (f.segments.map Prod.fst).Nodup := h f (List.mem_cons_self f rest)
    have hrest : ∀ g ∈ rest, ((g.segments.map Prod.fst).Nodup) :=
      fun g hg => h g (List.mem_cons_of_mem f hg)
    have hstep : (f :: rest).foldl (fun a g => addSegs a g.segments) acc =
        rest.foldl (fun a g => addSegs a g.segments) (addSegs acc f.segments) := rfl
    rw [hstep, ih (addSegs acc f.segments) hrest, objGet_addSegs f.segments acc k hf]
    show _ = optOr (match ContextControllerStack.getSegmentController rest k with
      | some c => some c
      | none => objGet f.segments k) (objGet acc k)
    cases ContextControllerStack.getSegmentController rest k <;> simp [optOr]

theorem pop_push_eq (stack : List Frame) (segs : List (String × Controller)) (fid : String) :
    ContextControllerStack.pop (ContextControllerStack.push stack segs fid) fid = .ok stack := by
  simp [ContextControllerStack.push, ContextControllerStack.pop,
        List.getLast?_concat, List.dropLast_concat]

theorem findTaskBinding_eq_find (name : String) (l : List (String × String)) :
    findTaskBinding name l = (l.find? (fun p => p.2 == name)).map Prod.fst := by
  induction l with
  | nil => rfl
  | cons p rest ih =>
    obtain ⟨tid, n⟩ := p
    by_cases h : n = name
    · have hb : (n == name) = true := beq_iff_eq.mpr h
      simp [findTaskBinding, List.find?, h, hb]
    · have hb : (n == name) = false := by
        simp [beq_iff_eq, h]
      simp [findTaskBinding, List.find?, h, hb, ih]

/-! ### Claim theorems -/

/-- C7: for every `runInContext` call, whether the outermost invocation's
`invoke()` returns a value or raises a failure, the frame pushed by
`runInContext` for the per-call child controllers is popped before the
result is returned or the failure propagates, so the view's controller
stack holds exactly the frames it held on entry. -/
theorem C7_run_in_context_restores_stack (stack : List Frame) (strictSegments : Bool)
    (segmentOptions : List (String × JSVal)) (call : Unit → Except JsErr JSVal)
    (freshId : String) :
    (ExecutionContextViewImpl.runInContext stack strictSegments segmentOptions call
      freshId).1 = stack := by
  unfold ExecutionContextViewImpl.runInContext
  cases h : buildChain stack strictSegments segmentOptions [] call with
  | error e => simp
  | ok pr =>
    obtain ⟨ctrls, inv⟩ := pr
    simp [pop_push_eq stack ctrls freshId]

/-- C8: `pop(frame_id)` on an empty stack raises the RangeError
`ERR_INDEX_OUT_OF_RANGE`; on a non-empty stack whose top frame's id differs
it raises `ERR_INVALID_ARG_VALUE` (the stack is untouched, the error being
raised before any mutation); with the matching top id it removes exactly
the top frame; and a pop for a frame id obtained from a push succeeds
exactly on the topmost frame. -/
theorem C8_pop_stack_discipline (stack : List Frame) (fid : String) :
    (stack = [] → ContextControllerStack.pop stack fid = .error .indexOutOfRange) ∧
    (∀ f, stack.getLast? = some f → f.frameId ≠ fid →
      ContextControllerStack.pop stack fid = .error (.invalidArgValue "frameId")) ∧
    (∀ f, stack.getLast? = some f → f.frameId = fid →
      ContextControllerStack.pop stack fid = .ok stack.dropLast) ∧
    (∀ segs, ContextControllerStack.pop
      (ContextControllerStack.push stack segs fid) fid = .ok stack) := by
  refine ⟨?_, ?_, ?_, ?_⟩
  · intro h
    subst h
    rfl
  · intro f hf hne
    simp [ContextControllerStack.pop, hf, hne]
  · intro f hf heq
    simp [ContextControllerStack.pop, hf, heq]
  · intro segs
    exact pop_push_eq stack segs fid

/-- C8 witness: the three pop behaviours at concrete stacks. -/
theorem C8_pop_stack_discipline_witness :
    ContextControllerStack.pop ([] : List Frame) "x" = .error .indexOutOfRange ∧
    ContextControllerStack.pop [⟨"a", []⟩] "b" = .error (.invalidArgValue "frameId") ∧
    ContextControllerStack.pop [⟨"a", []⟩] "a" = .ok [] :=
  ⟨(C8_pop_stack_discipline [] "x").1 rfl,
   (C8_pop_stack_discipline [⟨"a", []⟩] "b").2.1 ⟨"a", []⟩ rfl (by decide),
   (C8_pop_stack_discipline [⟨"a", []⟩] "a").2.2.1 ⟨"a", []⟩ rfl rfl⟩

/-- C3 counterexample: with two task ids bound to the lineage name `n`,
`endPromise` removes only the first binding, so a task→lineage binding
referencing `n` survives the call — contradicting the claim that no such
binding remains. -/
theorem C3_counterexample :
    ((endPromise (V := Unit) ⟨[("#1", "n"), ("#2", "n")], [("n", ())]⟩ "n").1.threadIdToName
      = [("#2", "n")]) ∧
    ((endPromise (V := Unit) ⟨[("#1", "n"), ("#2", "n")], [("n", ())]⟩ "n").1.threadIdToName.any
      (fun p => p.2 == "n") = true) ∧
    ((endPromise (V := Unit) ⟨[], [("n", ())]⟩ "n")
      = (⟨[], [("n", ())]⟩, false)) :=
  ⟨rfl, rfl, rfl⟩

/-- C3 (amended): `endPromise(name)` removes only the *first* task→lineage
binding referencing `name` (in table order) together with the lineage→view
binding for `name`, returning true; when no task binding references `name`
it removes nothing — the lineage→view binding, if any, is retained — and
returns false. -/
theorem C3_end_promise_amended {V : Type} (reg : ContextRegistry V) (name : String) :
    endPromise reg name =
      match reg.threadIdToName.find? (fun p => p.2 == name) with
      | some p =>
        ({ threadIdToName := objDelete reg.threadIdToName p.1,
           threadNameToView := objDelete reg.threadNameToView name }, true)
      | none => (reg, false) := by
  unfold endPromise
  rw [findTaskBinding_eq_find]
  cases h : reg.threadIdToName.find? (fun p => p.2 == name) <;> simp [h]

/-- C4 counterexample: a record whose stored parent is the concrete handle
5, on a later init announcing the concrete handle 7, ends with stored
parent 7 — the announced parent replaces the stored one, contradicting the
claim that the stored parent is left unchanged. -/
theorem C4_counterexample :
    ((ActivePromise.mk 3 1 (some 5)).addMatch (some 7)).parent = some 7 ∧
    ((ActivePromise.mk 3 1 (some 5)).addMatch (some 7)).parent ≠ some 5 ∧
    ((ActivePromise.mk 3 1 (some 5)).addMatch (some 7)).activeCount = 2 :=
  ⟨rfl, by decide, rfl⟩

/-- C4 (amended): a later init event always increments `active_count`
(uint32 wrap); a concretely announced parent always replaces the stored
parent, whether the stored parent was absent or concrete; a null/undefined
announcement leaves the stored parent unchanged. -/
theorem C4_add_match_amended (ap : ActivePromise) (p : Nat) :
    (ap.addMatch (some p)).parent = some p ∧
    (ap.addMatch (some p)).activeCount = (ap.activeCount + 1) % 4294967296 ∧
    (ap.addMatch none).parent = ap.parent ∧
    (ap.addMatch none).activeCount = (ap.activeCount + 1) % 4294967296 :=
  ⟨rfl, rfl, rfl, rfl⟩

/-- C1: evaluation of the flag-check block at the failing input.  With the
descriptor flags resolving to the string `"+"` (the `+` at position 0) and
the path resolving to `"/x"`, the source schedules *no* checks — even with
matchers rejecting everything, `onContext` reaches `invoke()` — while the
claim requires both the readable and the writable matcher to be consulted.
With `"r+"` (the `+` at position 1) both checks are scheduled, exhibiting
the position dependence introduced by `indexOf('+') > 0`. -/
theorem C1_flags_leading_plus_unchecked :
    flagChecks ⟨[], [], [], some "+", some "/x", none⟩ [] (.vstr "/x") = .ok [] ∧
    FileAccessController.onContext (fun s => s)
      ⟨fun _ => false, fun _ => false, fun _ => false⟩
      ⟨[], [], [], some "+", some "/x", none⟩ [] = .ok () ∧
    flagChecks ⟨[], [], [], some "r+", some "/x", none⟩ [] (.vstr "/x")
      = .ok [(AccessKind.readable, .vstr "/x"), (AccessKind.writable, .vstr "/x")] :=
  ⟨rfl, rfl, rfl⟩

/-- C2: evaluation of the mode-check block at the failing input.  With the
descriptor mode field `"444"` (or any string) and path `"/x"`, the source
schedules no checks at all: it resolves the whole descriptor object rather
than the mode field, so `_modeNum` falls back to `0o666 = 438`, and the
conditions parse as `438 & (0o444 !== 0) = 438 & 1 = 0`.  Even matchers
rejecting everything let the call through, while the claim requires the
readable matcher to be consulted whenever `mode & 0o444 ≠ 0`. -/
theorem C2_mode_block_never_consults :
    (∀ ms : String, modeChecks ⟨[], [], [], none, some "/x", some ms⟩ [] (.vstr "/x") = []) ∧
    FileAccessController.onContext (fun s => s)
      ⟨fun _ => false, fun _ => false, fun _ => false⟩
      ⟨[], [], [], none, some "/x", some "444"⟩ [] = .ok () :=
  ⟨fun _ => rfl, rfl⟩

/-- C5: evaluation of the array matcher at the failing input.  For the
array pattern holding one regex object whose `test` accepts everything,
the compiled matcher applied to `"a"` throws the native TypeError from
`_mkRegExpMatcher`'s `re.match()` instead of returning `r.test("a") = true`
as the claim requires. -/
theorem C5_array_regex_matcher_throws :
    Except.bind (toMatcher (fun s => s) (fun _ _ => false) "readable"
        (.parr [.pregex ⟨fun _ => true⟩])) (fun m => m "a")
      = .error (.nativeTypeError "re.match is not a function") ∧
    RegexObj.test ⟨fun _ => true⟩ "a" = true :=
  ⟨rfl, rfl⟩

/-- C6: the glob matcher advances in lock-step over pattern and input
segments; with identity normalisation, `/a/b/*` accepts `/a/b/c` but
rejects `/a/b`, `/a/b/c/d` and `/a/c/d`, while `/a/b/*/` accepts
`/a/b/c/d` and rejects `/a/b/c` (and `/a/b/c/`, whose trailing empty piece
is skipped and exhausts the input).  The `**` sentinel appears in the
assembled segment list exactly when the pattern ends in a separator. -/
theorem C6_glob_lockstep_examples :
    (∀ rt : String → String → Bool,
      (mkGlobMatcher (fun s => s) rt "/a/b/*").map (fun m =>
        (m "/a/b/c", m "/a/b", m "/a/b/c/d", m "/a/c/d"))
        = .ok (true, false, false, false) ∧
      (mkGlobMatcher (fun s => s) rt "/a/b/*/").map (fun m =>
        (m "/a/b/c/d", m "/a/b/c", m "/a/b/c/"))
        = .ok (true, false, false)) ∧
    buildGlobs (splitSeps "/a/b/*")
      = [GlobSeg.strSeg "a", GlobSeg.strSeg "b", GlobSeg.regexSeg [GSeg.anyStr]] ∧
    buildGlobs (splitSeps "/a/b/*/")
      = [GlobSeg.strSeg "a", GlobSeg.strSeg "b", GlobSeg.regexSeg [GSeg.anyStr],
         GlobSeg.sentinel] :=
  ⟨fun _ => ⟨rfl, rfl⟩, rfl, rfl⟩

/-- C9: for every controller stack whose frames carry duplicate-free
segment maps (the shape every frame built by `push` or `fork` has) and
every segment name, the stack forked under a fresh non-empty frame id is a
single collapsed frame whose lookup agrees with the source stack's
topmost-frame-wins lookup.  (In this functional embedding the fork shares
no mutable state with the source stack, so later pushes or pops on either
stack cannot affect the other's lookups.) -/
theorem C9_fork_lookup_agrees (stack : List Frame) (newId k : String)
    (hid : newId ≠ "")
    (h : ∀ f ∈ stack, ((f.segments.map Prod.fst).Nodup)) :
    ContextControllerStack.fork stack newId = .ok [⟨newId, collapseSegs stack⟩] ∧
    ContextControllerStack.getSegmentController [⟨newId, collapseSegs stack⟩] k =
      ContextControllerStack.getSegmentController stack k := by
  constructor
  · simp [ContextControllerStack.fork, hid]
  · have h1 : ContextControllerStack.getSegmentController [⟨newId, collapseSegs stack⟩] k
        = objGet (collapseSegs stack) k := by
      simp [ContextControllerStack.getSegmentController]
    have h2 : objGet (collapseSegs stack) k =
        optOr (ContextControllerStack.getSegmentController stack k)
          (objGet ([] : List (String × Controller)) k) :=
      objGet_collapse stack [] k h
    rw [h1, h2]
    cases ContextControllerStack.getSegmentController stack k <;> simp [optOr, objGet]

/-- C9 witness: fork of a one-frame stack holding the segment `s`. -/
theorem C9_fork_lookup_agrees_witness :
    ("b" : String) ≠ "" ∧
    (ContextControllerStack.fork [⟨"a", [("s", trivialController)]⟩] "b"
        = .ok [⟨"b", collapseSegs [⟨"a", [("s", trivialController)]⟩]⟩] ∧
      ContextControllerStack.getSegmentController
          [⟨"b", collapseSegs [⟨"a", [("s", trivialController)]⟩]⟩] "s" =
        ContextControllerStack.getSegmentController
          [⟨"a", [("s", trivialController)]⟩] "s") := by
  refine ⟨by decide, C9_fork_lookup_agrees _ _ _ (by decide) ?_⟩
  intro f hf
  rw [List.mem_singleton] at hf
  subst hf
  decide

/-- C10: when the request descriptor's `flags` field is a string (for
example a placeholder) whose resolution against the call's arguments
*yields* null or undefined (a resolution that throws — such as a `{N.key}`
placeholder hitting a null argument — yields nothing and propagates
instead), and the resolved path is a string, the controller substitutes
the default flags `'r'`: the flag block schedules exactly one readable
check on the path — the writable matcher is not consulted and the check is
not skipped — and (with an otherwise empty descriptor) the call proceeds
exactly when the readable matcher accepts the path. -/
theorem C10_flags_default_readable
    (norm : String → String) (fa : FAMatchers) (args : List JSVal)
    (ctx : FAContext) (f pd p : String)
    (hflags : ctx.flags = some f)
    (hres : getResourceArg (.vstr f) args = .ok .vundefined ∨
      getResourceArg (.vstr f) args = .ok .vnull)
    (hpath : ctx.path = some pd)
    (hpv : (getResourceArg (.vstr pd) args).map (normalizePathJS norm) = .ok (.vstr p))
    (hread : ctx.read = []) (hwrite : ctx.write = []) (hlist : ctx.list = [])
    (hmode : ctx.mode = none) :
    flagChecks ctx args (.vstr p) = .ok [(AccessKind.readable, .vstr p)] ∧
    FileAccessController.onContext norm fa ctx args =
      (if fa.readable p then .ok () else .error (.fileAccessForbidden (.vstr p))) := by
  obtain ⟨r, w, l, flg, pp, md⟩ := ctx
  simp only at hflags hpath hread hwrite hlist hmode
  subst hflags hpath hread hwrite hlist hmode
  have hfc : flagChecks ⟨[], [], [], some f, some pd, none⟩ args (.vstr p)
      = .ok [(AccessKind.readable, .vstr p)] := by
    rcases hres with h | h <;>
    · simp only [flagChecks, h]
      norm_num [strIndexOf, strIndexOfAux]
      decide
  refine ⟨hfc, ?_⟩
  obtain ⟨pv, hpd, hnorm⟩ : ∃ pv, getResourceArg (.vstr pd) args = .ok pv ∧
      normalizePathJS norm pv = .vstr p := by
    cases h : getResourceArg (.vstr pd) args with
    | error e =>
      rw [h] at hpv
      simp only [Except.map] at hpv
      exact Except.noConfusion hpv
    | ok v =>
      rw [h] at hpv
      simp only [Except.map] at hpv
      exact ⟨v, rfl, by injection hpv⟩
  simp only [FileAccessController.onContext, optStrJS, hpd, hnorm, hfc]
  simp only [modeChecks, runCheckList]
  rcases Bool.eq_false_or_eq_true (fa.readable p) with hb | hb <;>
    simp [runChecks, checkMode, isMatched, FAMatchers.get, hb]

/-- C10 witness: descriptor flags `"{0}"` with no arguments resolves to
undefined, so the default `'r'` applies and the accepting readable matcher
lets the call through. -/
theorem C10_flags_default_readable_witness :
    flagChecks ⟨[], [], [], some "{0}", some "/x", none⟩ [] (.vstr "/x")
      = .ok [(AccessKind.readable, .vstr "/x")] ∧
    FileAccessController.onContext (fun s => s)
      ⟨fun _ => true, fun _ => false, fun _ => false⟩
      ⟨[], [], [], some "{0}", some "/x", none⟩ [] = .ok () :=
  C10_flags_default_readable (fun s => s)
    ⟨fun _ => true, fun _ => false, fun _ => false⟩ []
    ⟨[], [], [], some "{0}", some "/x", none⟩ "{0}" "/x" "/x"
    rfl (Or.inl rfl) rfl rfl rfl rfl rfl rfl

/-- C10 boundary fact: a `{N.key}` flags placeholder reaching a `null`
argument does not fall back to the default `'r'` — the resolution itself
throws (JS `typeof null === 'object'` admits `null` and `null[key]` raises
a TypeError), and `onContext` propagates that error before consulting any
matcher, even an all-accepting one. -/
theorem C10_null_option_arg_throws :
    getResourceArg (.vstr "{0.k}") [.vnull]
      = .error (.nativeTypeError "Cannot read property of null") ∧
    FileAccessController.onContext (fun s => s)
      ⟨fun _ => true, fun _ => true, fun _ => true⟩
      ⟨[], [], [], some "{0.k}", some "/x", none⟩ [.vnull]
      = .error (.nativeTypeError "Cannot read property of null") :=
  ⟨rfl, rfl⟩
